import Mathlib

/-!
Verification of the juryrig rendering engine's frame-lifecycle and
resource-management subsystem.

Each Rust source function under `src/example_app/vulkan/` that a claim
refers to is shallowly embedded as a Lean definition below:

* `SwapchainM.getNextFramebuffer` embeds `Swapchain::get_next_framebuffer`
  (`swapchain.rs`), in particular the ring-counter update
  `current_image = (current_image + 1) % amount_of_images`.
* `requestedImageCount` embeds the `min_image_count` expression of
  `Swapchain::init` (`swapchain.rs` lines 56-59):
  `3.max(min_image_count).min(max_image_count)`.
* `BufferM.copy` / `BufferM.cleanup` and `ImageM.copyAlloc` /
  `ImageM.cleanup` embed `Buffer::copy` / `Buffer::cleanup` and
  `Image::copy` / `Image::cleanup` (`buffer.rs`).
* `queueFamiliesNewInit` embeds `QueueFamilies::new` from
  `initialisation.rs`; `queueFamiliesNewMod` embeds `QueueFamilies::new`
  from `mod.rs` (transfer-specialization scan).
* `TextureM.new`, `TextureM.upload`, `TextureStoreM.registerTexture`
  and `TextureStoreM.getDescriptorImageInfo` embed the corresponding
  functions of `texture.rs`.
* `CameraSt` and its `turn` operations embed `camera.rs` over exact real
  arithmetic; `projectionMatrix` embeds `Camera::update_projectionmatrix`.

Rust `Option::unwrap` / `Result::unwrap` on a failure value is a panic;
panics are modelled explicitly (`RustRes.panicked` and friends) and kept
distinct from typed `Result` errors.
-/

/-! ## Swapchain model (`swapchain.rs`) -/

/-- State of `Swapchain` restricted to the fields read or written by
`get_next_framebuffer`: the sync-object arrays, the framebuffer array,
the image count and the ring counter `current_image`.  Handles are
modelled as natural numbers. -/
structure SwapchainM where
  amountOfImages : Nat
  currentImage : Nat
  imageAvailable : List Nat
  renderingFinished : List Nat
  mayBeginDrawing : List Nat
  frameBuffers : List Nat
deriving DecidableEq, Repr

/-- The data returned by `get_next_framebuffer` (`FrameBufferInfo`). -/
structure FrameBufferInfoM where
  semaphoresAvailable : Nat
  semaphoresFinished : Nat
  mayBeginFence : Nat
  imageIndex : Nat
  framebuffer : Nat
deriving DecidableEq, Repr

/-- Embedding of `Swapchain::get_next_framebuffer` (`swapchain.rs` lines
188-234).  The presentation engine's acquired image index is an external
input (`acquiredImageIndex`, the `image_index` returned by
`acquire_next_image`); the fence wait/reset touches no modelled state.
The ring counter is advanced first: `current_image = (current_image + 1)
% amount_of_images`; sync objects are indexed by the ring counter while
the framebuffer is indexed by the acquired image index. -/
def SwapchainM.getNextFramebuffer (s : SwapchainM) (acquiredImageIndex : Nat) :
    SwapchainM × FrameBufferInfoM :=
  let cur := (s.currentImage + 1) % s.amountOfImages
  ({ s with currentImage := cur },
   { semaphoresAvailable := s.imageAvailable.getD cur 0
     semaphoresFinished := s.renderingFinished.getD cur 0
     mayBeginFence := s.mayBeginDrawing.getD cur 0
     imageIndex := acquiredImageIndex
     framebuffer := s.frameBuffers.getD acquiredImageIndex 0 })

/-- Repeated frame acquisition: fold `get_next_framebuffer` over a list of
acquired image indices, keeping the final state. -/
def runFrames (s : SwapchainM) (acqs : List Nat) : SwapchainM :=
  acqs.foldl (fun t a => (t.getNextFramebuffer a).1) s

/-- The successive values taken by `current_image` over a run of
`get_next_framebuffer` calls. -/
def traceCurrent : SwapchainM → List Nat → List Nat
  | _, [] => []
  | s, a :: rest =>
    let s' := (s.getNextFramebuffer a).1
    s'.currentImage :: traceCurrent s' rest

theorem getNextFramebuffer_amount (s : SwapchainM) (a : Nat) :
    ((s.getNextFramebuffer a).1).amountOfImages = s.amountOfImages := rfl

theorem getNextFramebuffer_current (s : SwapchainM) (a : Nat) :
    ((s.getNextFramebuffer a).1).currentImage =
      (s.currentImage + 1) % s.amountOfImages := rfl

theorem runFrames_nil (s : SwapchainM) : runFrames s [] = s := rfl

theorem runFrames_cons (s : SwapchainM) (a : Nat) (rest : List Nat) :
    runFrames s (a :: rest) = runFrames ((s.getNextFramebuffer a).1) rest := rfl

theorem runFrames_amount (acqs : List Nat) (s : SwapchainM) :
    (runFrames s acqs).amountOfImages = s.amountOfImages := by
  induction acqs generalizing s with
  | nil => rfl
  | cons a rest ih => rw [runFrames_cons, ih, getNextFramebuffer_amount]

theorem runFrames_current (acqs : List Nat) (s : SwapchainM)
    (hc : s.currentImage < s.amountOfImages) :
    (runFrames s acqs).currentImage =
      (s.currentImage + acqs.length) % s.amountOfImages := by
  induction acqs generalizing s with
  | nil => simpa [runFrames] using (Nat.mod_eq_of_lt hc).symm
  | cons a rest ih =>
    have hN : 0 < s.amountOfImages := Nat.lt_of_le_of_lt (Nat.zero_le _) hc
    rw [runFrames_cons]
    have hc' : ((s.getNextFramebuffer a).1).currentImage <
        ((s.getNextFramebuffer a).1).amountOfImages := by
      rw [getNextFramebuffer_current, getNextFramebuffer_amount]
      exact Nat.mod_lt _ hN
    rw [ih _ hc', getNextFramebuffer_current, getNextFramebuffer_amount,
      Nat.mod_add_mod]
    simp only [List.length_cons]
    congr 1
    omega

theorem traceCurrent_eq (acqs : List Nat) (s : SwapchainM) :
    traceCurrent s acqs =
      (List.range acqs.length).map
        (fun k => (s.currentImage + 1 + k) % s.amountOfImages) := by
  induction acqs generalizing s with
  | nil => rfl
  | cons a rest ih =>
    have hstep : traceCurrent s (a :: rest) =
        ((s.getNextFramebuffer a).1).currentImage ::
          traceCurrent ((s.getNextFramebuffer a).1) rest := rfl
    rw [hstep, ih]
    rw [List.length_cons, List.range_succ_eq_map, List.map_cons, List.map_map]
    congr 1
    apply List.map_congr_left
    intro k hk
    simp only [Function.comp_apply, getNextFramebuffer_current,
      getNextFramebuffer_amount, Nat.succ_eq_add_one]
    rw [Nat.add_assoc, Nat.mod_add_mod]
    congr 1
    omega

theorem visited_eq_rotate (N c : Nat) :
    (List.range N).map (fun k => (c + 1 + k) % N) =
      (List.range N).rotate ((c + 1) % N) := by
  apply List.ext_getElem
  · simp
  · intro i h1 h2
    rw [List.getElem_map, List.getElem_range, List.getElem_rotate,
      List.getElem_range]
    simp only [List.length_range]
    rw [Nat.add_mod_mod]
    congr 1
    omega

/-- C1: Every call to `get_next_framebuffer` advances the ring counter to
`(previous + 1) mod N`; over any `N` successive calls (for any acquired
image indices) `current_image` visits each value in `0..N` exactly once
(the visited list is a rotation, hence a permutation, of `0..N`), comes
back to its starting value after exactly `N` calls, and does not return
to it after any shorter nonempty run. -/
theorem swapchain_ring_counter_cycles (s : SwapchainM) (acqs : List Nat)
    (hc : s.currentImage < s.amountOfImages)
    (hlen : acqs.length = s.amountOfImages) :
    (∀ a, ((s.getNextFramebuffer a).1).currentImage =
        (s.currentImage + 1) % s.amountOfImages)
    ∧ traceCurrent s acqs =
        (List.range s.amountOfImages).rotate ((s.currentImage + 1) % s.amountOfImages)
    ∧ (traceCurrent s acqs).Perm (List.range s.amountOfImages)
    ∧ (runFrames s acqs).currentImage = s.currentImage
    ∧ (∀ pre : List Nat, pre ≠ [] → pre.length < s.amountOfImages →
        (runFrames s pre).currentImage ≠ s.currentImage) := by
  have htrace : traceCurrent s acqs =
      (List.range s.amountOfImages).rotate ((s.currentImage + 1) % s.amountOfImages) := by
    rw [traceCurrent_eq, hlen, visited_eq_rotate]
  refine ⟨fun a => rfl, htrace, ?_, ?_, ?_⟩
  · rw [htrace]; exact List.rotate_perm _ _
  · rw [runFrames_current _ _ hc, hlen, Nat.add_mod_right, Nat.mod_eq_of_lt hc]
  · intro pre hne hlt h
    rw [runFrames_current _ _ hc] at h
    have hmod : (s.currentImage + pre.length) % s.amountOfImages =
        s.currentImage % s.amountOfImages := by
      rw [h, Nat.mod_eq_of_lt hc]
    have hdvd : s.amountOfImages ∣ pre.length := by
      have := (Nat.modEq_iff_dvd' (Nat.le_add_right s.currentImage pre.length)).mp
        hmod.symm
      simpa using this
    have hpos : 0 < pre.length := List.length_pos.mpr hne
    exact absurd (Nat.le_of_dvd hpos hdvd) (Nat.not_le_of_lt hlt)

/-- Witness for C1 at `N = 3`, starting counter `0`, acquired indices
`[7, 0, 5]`. -/
theorem swapchain_ring_counter_cycles_witness :
    (∀ a, (((SwapchainM.mk 3 0 [] [] [] []).getNextFramebuffer a).1).currentImage =
        (0 + 1) % 3)
    ∧ traceCurrent (SwapchainM.mk 3 0 [] [] [] []) [7, 0, 5] =
        (List.range 3).rotate ((0 + 1) % 3)
    ∧ (traceCurrent (SwapchainM.mk 3 0 [] [] [] []) [7, 0, 5]).Perm (List.range 3)
    ∧ (runFrames (SwapchainM.mk 3 0 [] [] [] []) [7, 0, 5]).currentImage = 0
    ∧ (∀ pre : List Nat, pre ≠ [] → pre.length < 3 →
        (runFrames (SwapchainM.mk 3 0 [] [] [] []) pre).currentImage ≠ 0) :=
  swapchain_ring_counter_cycles (SwapchainM.mk 3 0 [] [] [] []) [7, 0, 5]
    (by decide) (by decide)

/-! ## Swapchain image count (`swapchain.rs` lines 54-59) -/

/-- Embedding of the `min_image_count` argument of the swapchain create
info: `3.max(surface_capabilities.min_image_count)
.min(surface_capabilities.max_image_count)`. -/
def requestedImageCount (capMin capMax : Nat) : Nat :=
  Nat.min (Nat.max 3 capMin) capMax

/-- The spec's wording: `clamp(3, minImageCount, maxImageCount)`, the
conventional clamp of the value 3 to the interval `[lo, hi]`. -/
def clampSpec (x lo hi : Nat) : Nat :=
  Nat.max lo (Nat.min x hi)

/-- C4: for every surface-capability pair with `min ≤ max`, the requested
swapchain image count is `clamp(3, minImageCount, maxImageCount)`: it is
3 clamped below by `min` and above by `max`, lies in `[min, max]`, and
equals 3 whenever 3 already lies in that interval. -/
theorem swapchain_image_count_clamp (capMin capMax : Nat) (h : capMin ≤ capMax) :
    requestedImageCount capMin capMax = clampSpec 3 capMin capMax
    ∧ capMin ≤ requestedImageCount capMin capMax
    ∧ requestedImageCount capMin capMax ≤ capMax
    ∧ (capMin ≤ 3 → 3 ≤ capMax → requestedImageCount capMin capMax = 3)
    ∧ (3 < capMin → requestedImageCount capMin capMax = capMin)
    ∧ (capMax < 3 → requestedImageCount capMin capMax = capMax) := by
  simp only [requestedImageCount, clampSpec, Nat.min_def, Nat.max_def]
  split_ifs <;> omega

/-- Witness for C4 at `min = 2`, `max = 5` (and the clamp evaluates to 3). -/
theorem swapchain_image_count_clamp_witness :
    requestedImageCount 2 5 = clampSpec 3 2 5
    ∧ 2 ≤ requestedImageCount 2 5
    ∧ requestedImageCount 2 5 ≤ 5
    ∧ (2 ≤ 3 → 3 ≤ 5 → requestedImageCount 2 5 = 3)
    ∧ (3 < 2 → requestedImageCount 2 5 = 2)
    ∧ (5 < 3 → requestedImageCount 2 5 = 5) :=
  swapchain_image_count_clamp 2 5 (by decide)

/-! ## Buffer / Image resource wrappers (`buffer.rs`) -/

/-- A `gpu_allocator` allocation as seen by the wrappers: an identity and,
when the memory is host-visible, a mapped base pointer
(`Allocation::mapped_ptr`). -/
structure AllocationM where
  id : Nat
  mappedPtr : Option Nat
deriving DecidableEq, Repr

/-- The allocator, restricted to what `cleanup` observes: the multiset of
allocations handed to `Allocator::free`, in order. -/
structure AllocatorSt where
  freed : List Nat
deriving DecidableEq, Repr

/-- `Allocator::free` (modelled as always succeeding; the source calls
`.unwrap()` on its result). -/
def AllocatorSt.freeAlloc (al : AllocatorSt) (a : AllocationM) : AllocatorSt :=
  { freed := al.freed ++ [a.id] }

/-- `Buffer<T>` (`buffer.rs` lines 6-11): native handle, take-once
allocation slot, logical element count `size`. -/
structure BufferM (T : Type) where
  buffer : Nat
  allocation : Option AllocationM
  size : Nat

/-- `Image` (`buffer.rs` lines 79-82). -/
structure ImageM where
  image : Nat
  allocation : Option AllocationM
deriving DecidableEq, Repr

/-- Outcome of a Rust call: `Ok`, a typed `Err`, or a panic
(`unwrap`/`expect` on a failure value). -/
inductive RustStatus where
  | ok
  | err
  | panicked
deriving DecidableEq, Repr

/-- Embedding of `Buffer::copy` (`buffer.rs` lines 55-66).  Host memory is
a map from byte/element addresses to stored values.  With an allocation
present and mapped, `copy_nonoverlapping(in_data.as_ptr(), data_ptr,
in_data.len())` writes exactly `in_data.len()` elements starting at the
mapped pointer — the buffer's `size` is never consulted.  With no
allocation the call returns `Err(())` and writes nothing.  With an
unmapped allocation, `mapped_ptr().unwrap()` panics. -/
def BufferM.copy {T : Type} (b : BufferM T) (inData : List T)
    (mem : Nat → Option T) : RustStatus × (Nat → Option T) :=
  match b.allocation with
  | none => (.err, mem)
  | some alloc =>
    match alloc.mappedPtr with
    | none => (.panicked, mem)
    | some p =>
      (.ok, fun i => if p ≤ i ∧ i < p + inData.length then inData.get? (i - p) else mem i)

/-- Embedding of `Buffer::cleanup` (`buffer.rs` lines 68-72): destroy the
native handle, then `allocator.free(self.allocation.take().unwrap())`.
`take()` empties the slot and yields the old value; `unwrap()` on an
already-empty slot panics before anything is freed. -/
def BufferM.cleanup {T : Type} (b : BufferM T) (al : AllocatorSt) :
    RustStatus × BufferM T × AllocatorSt :=
  match b.allocation with
  | some a => (.ok, { b with allocation := none }, al.freeAlloc a)
  | none => (.panicked, b, al)

/-- Embedding of `Image::copy` (`buffer.rs` lines 117-128), identical in
structure to `Buffer::copy`. -/
def ImageM.copyAlloc {T : Type} (img : ImageM) (inData : List T)
    (mem : Nat → Option T) : RustStatus × (Nat → Option T) :=
  match img.allocation with
  | none => (.err, mem)
  | some alloc =>
    match alloc.mappedPtr with
    | none => (.panicked, mem)
    | some p =>
      (.ok, fun i => if p ≤ i ∧ i < p + inData.length then inData.get? (i - p) else mem i)

/-- Embedding of `Image::cleanup` (`buffer.rs` lines 130-134). -/
def ImageM.cleanup (img : ImageM) (al : AllocatorSt) :
    RustStatus × ImageM × AllocatorSt :=
  match img.allocation with
  | some a => (.ok, { img with allocation := none }, al.freeAlloc a)
  | none => (.panicked, img, al)

/-- C2: for every `Buffer<T>` (and `Image`) whose slot is occupied,
`cleanup` succeeds, empties the slot, and hands the allocation to the
allocator's `free` exactly once; afterwards any `copy` returns `Err`
without writing to memory, and a second `cleanup` panics immediately,
freeing nothing. -/
theorem cleanup_take_once {T U : Type} (b : BufferM T) (img : ImageM)
    (al alI : AllocatorSt) (a aI : AllocationM)
    (hb : b.allocation = some a) (hi : img.allocation = some aI) :
    b.cleanup al = (.ok, { b with allocation := none },
      { freed := al.freed ++ [a.id] })
    ∧ (∀ (d : List T) (mem : Nat → Option T),
        ({ b with allocation := none } : BufferM T).copy d mem = (.err, mem))
    ∧ (∀ al' : AllocatorSt,
        ({ b with allocation := none } : BufferM T).cleanup al' =
          (.panicked, { b with allocation := none }, al'))
    ∧ img.cleanup alI = (.ok, { img with allocation := none },
      { freed := alI.freed ++ [aI.id] })
    ∧ (∀ (d : List U) (mem : Nat → Option U),
        ({ img with allocation := none } : ImageM).copyAlloc d mem = (.err, mem))
    ∧ (∀ al' : AllocatorSt,
        ({ img with allocation := none } : ImageM).cleanup al' =
          (.panicked, { img with allocation := none }, al')) := by
  refine ⟨?_, fun d mem => rfl, fun al' => rfl, ?_, fun d mem => rfl, fun al' => rfl⟩
  · simp [BufferM.cleanup, hb, AllocatorSt.freeAlloc]
  · simp [ImageM.cleanup, hi, AllocatorSt.freeAlloc]

/-- Witness for C2: a live buffer holding allocation 7 and a live image
holding allocation 9. -/
theorem cleanup_take_once_witness :
    (BufferM.mk 1 (some (AllocationM.mk 7 (some 100))) 4 : BufferM Nat).cleanup
        (AllocatorSt.mk []) =
      (.ok, { (BufferM.mk 1 (some (AllocationM.mk 7 (some 100))) 4 : BufferM Nat) with
        allocation := none }, AllocatorSt.mk ([] ++ [7]))
    ∧ (∀ (d : List Nat) (mem : Nat → Option Nat),
        ({ (BufferM.mk 1 (some (AllocationM.mk 7 (some 100))) 4 : BufferM Nat) with
          allocation := none } : BufferM Nat).copy d mem = (.err, mem))
    ∧ (∀ al' : AllocatorSt,
        ({ (BufferM.mk 1 (some (AllocationM.mk 7 (some 100))) 4 : BufferM Nat) with
          allocation := none } : BufferM Nat).cleanup al' =
          (.panicked, { (BufferM.mk 1 (some (AllocationM.mk 7 (some 100))) 4 :
            BufferM Nat) with allocation := none }, al'))
    ∧ (ImageM.mk 2 (some (AllocationM.mk 9 none))).cleanup (AllocatorSt.mk []) =
      (.ok, { ImageM.mk 2 (some (AllocationM.mk 9 none)) with allocation := none },
        AllocatorSt.mk ([] ++ [9]))
    ∧ (∀ (d : List Bool) (mem : Nat → Option Bool),
        ({ ImageM.mk 2 (some (AllocationM.mk 9 none)) with
          allocation := none } : ImageM).copyAlloc d mem = (.err, mem))
    ∧ (∀ al' : AllocatorSt,
        ({ ImageM.mk 2 (some (AllocationM.mk 9 none)) with
          allocation := none } : ImageM).cleanup al' =
          (.panicked, { ImageM.mk 2 (some (AllocationM.mk 9 none)) with
            allocation := none }, al')) :=
  cleanup_take_once (BufferM.mk 1 (some (AllocationM.mk 7 (some 100))) 4)
    (ImageM.mk 2 (some (AllocationM.mk 9 none))) (AllocatorSt.mk [])
    (AllocatorSt.mk []) (AllocationM.mk 7 (some 100)) (AllocationM.mk 9 none)
    rfl rfl

/-- C10: for a buffer whose allocation slot is occupied and mapped at `p`,
`copy` returns `Ok` and writes exactly `in_data.len()` elements starting
at `p`; the logical element count `size` is never consulted (the result is
unchanged under any replacement of `size`), so when `in_data.len()`
exceeds `size` the write extends past the buffer's region, touching
address `p + size` and beyond. -/
theorem buffer_copy_unbounded {T : Type} (b : BufferM T) (a : AllocationM)
    (p : Nat) (d : List T) (mem : Nat → Option T)
    (hb : b.allocation = some a) (hp : a.mappedPtr = some p) :
    (b.copy d mem).1 = .ok
    ∧ (∀ i, (b.copy d mem).2 i =
        if p ≤ i ∧ i < p + d.length then d.get? (i - p) else mem i)
    ∧ (∀ j, j < d.length → (b.copy d mem).2 (p + j) = d.get? j)
    ∧ (∀ i, (i < p ∨ p + d.length ≤ i) → (b.copy d mem).2 i = mem i)
    ∧ (∀ size' : Nat, ({ b with size := size' } : BufferM T).copy d mem = b.copy d mem)
    ∧ (b.size < d.length → (b.copy d mem).2 (p + b.size) = d.get? b.size) := by
  have hcopy : b.copy d mem = (.ok, fun i =>
      if p ≤ i ∧ i < p + d.length then d.get? (i - p) else mem i) := by
    simp [BufferM.copy, hb, hp]
  refine ⟨by rw [hcopy], by rw [hcopy]; intro i; rfl, ?_, ?_, ?_, ?_⟩
  · intro j hj
    rw [hcopy]
    have hcond : p ≤ p + j ∧ p + j < p + d.length := by omega
    simp [hcond, Nat.add_sub_cancel_left]
  · intro i hi
    rw [hcopy]
    have hcond : ¬(p ≤ i ∧ i < p + d.length) := by omega
    simp only [hcond, if_neg, not_false_iff]
  · intro size'
    simp [BufferM.copy, hb, hp]
  · intro hlt
    rw [hcopy]
    have hcond : p ≤ p + b.size ∧ p + b.size < p + d.length := by omega
    simp [hcond, Nat.add_sub_cancel_left]

/-- Witness for C10: buffer of logical size 1 mapped at 100, copying 3
elements; the write covers addresses 100..102, past `p + size = 101`. -/
theorem buffer_copy_unbounded_witness :
    ((BufferM.mk 1 (some (AllocationM.mk 7 (some 100))) 1 : BufferM Nat).copy
        [10, 20, 30] (fun _ => none)).1 = .ok
    ∧ (∀ i, ((BufferM.mk 1 (some (AllocationM.mk 7 (some 100))) 1 : BufferM Nat).copy
        [10, 20, 30] (fun _ => none)).2 i =
          if 100 ≤ i ∧ i < 100 + ([10, 20, 30] : List Nat).length then
            ([10, 20, 30] : List Nat).get? (i - 100) else none)
    ∧ (∀ j, j < ([10, 20, 30] : List Nat).length →
        ((BufferM.mk 1 (some (AllocationM.mk 7 (some 100))) 1 : BufferM Nat).copy
          [10, 20, 30] (fun _ => none)).2 (100 + j) = ([10, 20, 30] : List Nat).get? j)
    ∧ (∀ i, (i < 100 ∨ 100 + ([10, 20, 30] : List Nat).length ≤ i) →
        ((BufferM.mk 1 (some (AllocationM.mk 7 (some 100))) 1 : BufferM Nat).copy
          [10, 20, 30] (fun _ => none)).2 i = none)
    ∧ (∀ size' : Nat,
        ({ (BufferM.mk 1 (some (AllocationM.mk 7 (some 100))) 1 : BufferM Nat) with
          size := size' } : BufferM Nat).copy [10, 20, 30] (fun _ => none) =
        (BufferM.mk 1 (some (AllocationM.mk 7 (some 100))) 1 : BufferM Nat).copy
          [10, 20, 30] (fun _ => none))
    ∧ ((BufferM.mk 1 (some (AllocationM.mk 7 (some 100))) 1 : BufferM Nat).size <
          ([10, 20, 30] : List Nat).length →
        ((BufferM.mk 1 (some (AllocationM.mk 7 (some 100))) 1 : BufferM Nat).copy
          [10, 20, 30] (fun _ => none)).2
            (100 + (BufferM.mk 1 (some (AllocationM.mk 7 (some 100))) 1 :
              BufferM Nat).size) =
          ([10, 20, 30] : List Nat).get?
            (BufferM.mk 1 (some (AllocationM.mk 7 (some 100))) 1 : BufferM Nat).size) :=
  buffer_copy_unbounded (BufferM.mk 1 (some (AllocationM.mk 7 (some 100))) 1)
    (AllocationM.mk 7 (some 100)) 100 [10, 20, 30] (fun _ => none) rfl rfl

/-! ## Queue family selection (`initialisation.rs`, `mod.rs`)

`vk::QueueFlags` bits: GRAPHICS = 0x1, COMPUTE = 0x2, TRANSFER = 0x4.
Bit tests on the `u32` flag word are modelled arithmetically:
`(f / b) % 2 = 1` holds exactly when the single bit `b` of `f` is set,
which agrees with the source's `contains`/`intersects` on these masks. -/

structure QueueFamilyProps where
  queueCount : Nat
  queueFlags : Nat
deriving DecidableEq, Repr

/-- Test of the single flag bit `b` (`b` one of 1, 2, 4) in the flag
word `f`. -/
def hasFlagBit (f b : Nat) : Bool := (f / b) % 2 == 1

/-- Fuel-driven binary digit count (structural so it evaluates by
`decide`). -/
def bitCountAux : Nat → Nat → Nat
  | 0, _ => 0
  | fuel + 1, n => if n = 0 then 0 else n % 2 + bitCountAux fuel (n / 2)

/-- Number of set bits of `n` — the source's Kernighan loop
(`raw_queue_flags &= raw_queue_flags - 1` counting iterations). -/
def bitCount (n : Nat) : Nat := bitCountAux n n

/-- `raw & !TRANSFER` followed by the bit-count loop (`mod.rs` lines
63-72): the number of capability bits set other than TRANSFER (bit 4 is
cleared arithmetically). -/
def nonTransferBits (f : Nat) : Nat := bitCount (f - 4 * ((f / 4) % 2))

/-- The graphics-family condition of both `QueueFamilies::new` variants:
`queue_count > 0`, GRAPHICS capability, and presentation support to the
surface for this family index. -/
def graphicsEligible (support : Nat → Bool) (i : Nat) (fam : QueueFamilyProps) : Bool :=
  decide (0 < fam.queueCount) && hasFlagBit fam.queueFlags 1 && support i

/-- The transfer-candidate condition of `mod.rs` `QueueFamilies::new`:
`queue_count > 0` and `queue_flags.intersects(TRANSFER | GRAPHICS |
COMPUTE)`. -/
def transferEligibleB (fam : QueueFamilyProps) : Bool :=
  decide (0 < fam.queueCount) &&
    (hasFlagBit fam.queueFlags 4 || hasFlagBit fam.queueFlags 1 ||
      hasFlagBit fam.queueFlags 2)

/-! ### `QueueFamilies::new` of `initialisation.rs` (lines 264-318) -/

inductive InitErrorM where
  | deviceSelectionError (msg : String)
deriving DecidableEq, Repr

structure QueueFamiliesInit where
  graphicsQueueCount : Nat
  graphics : Nat
  compute : Nat
  transfer : Nat
  computeQueueCount : Nat
  transferQueueCount : Nat
deriving DecidableEq, Repr

/-- One loop iteration of `initialisation.rs` `QueueFamilies::new`: each
of the three option variables is overwritten (not guarded on being
`None`) whenever the family matches its condition. -/
def qfInitScanStep (support : Nat → Bool) (st : Option Nat × Option Nat × Option Nat)
    (i : Nat) (fam : QueueFamilyProps) : Option Nat × Option Nat × Option Nat :=
  (if graphicsEligible support i fam = true then some i else st.1,
   if (decide (0 < fam.queueCount) && hasFlagBit fam.queueFlags 2 &&
        !hasFlagBit fam.queueFlags 1 && support i) = true then some i else st.2.1,
   if (decide (0 < fam.queueCount) && hasFlagBit fam.queueFlags 4 &&
        !(hasFlagBit fam.queueFlags 1 || hasFlagBit fam.queueFlags 2) &&
        support i) = true then some i else st.2.2)

def qfInitScan (support : Nat → Bool) (fams : List QueueFamilyProps) :
    Option Nat × Option Nat × Option Nat :=
  fams.enum.foldl (fun st p => qfInitScanStep support st p.1 p.2) (none, none, none)

/-- Embedding of `QueueFamilies::new` from `initialisation.rs`: run the
scan; fail fatally when no graphics family was found; otherwise fall back
`compute := compute.unwrap_or(graphics)`,
`transfer := transfer.unwrap_or(compute)` and read back the queue
counts. -/
def queueFamiliesNewInit (support : Nat → Bool) (fams : List QueueFamilyProps) :
    Except InitErrorM QueueFamiliesInit :=
  let st := qfInitScan support fams
  match st.1 with
  | none => .error (.deviceSelectionError "No valid queues exist for graphics!")
  | some g =>
    let c := st.2.1.getD g
    let t := st.2.2.getD c
    .ok { graphicsQueueCount := (fams.getD g ⟨0, 0⟩).queueCount
          graphics := g
          compute := c
          transfer := t
          computeQueueCount := (fams.getD c ⟨0, 0⟩).queueCount
          transferQueueCount := (fams.getD t ⟨0, 0⟩).queueCount }

/-- The spec's candidate rule restated over the scan: the graphics slot
ends up holding the LAST eligible family index of the enumeration (the
loop overwrites on every match). -/
def lastGraphicsFamily (support : Nat → Bool) (fams : List QueueFamilyProps) :
    Option Nat :=
  fams.enum.foldl
    (fun acc p => if graphicsEligible support p.1 p.2 = true then some p.1 else acc)
    none

theorem qfInitScan_graphics (support : Nat → Bool)
    (l : List (Nat × QueueFamilyProps)) (g c t : Option Nat) :
    (l.foldl (fun st p => qfInitScanStep support st p.1 p.2) (g, c, t)).1 =
      l.foldl
        (fun acc p => if graphicsEligible support p.1 p.2 = true then some p.1 else acc)
        g := by
  induction l generalizing g c t with
  | nil => rfl
  | cons p rest ih =>
    simp only [List.foldl_cons]
    exact ih _ _ _

/-- C5 counterexample: two queue families, both with `queue_count > 0`,
GRAPHICS capability and surface support.  The claim says the FIRST
(index 0) is chosen; the code chooses index 1 (the loop overwrites on
every match). -/
theorem graphics_family_first_match_cex :
    queueFamiliesNewInit (fun _ => true)
        [QueueFamilyProps.mk 1 1, QueueFamilyProps.mk 1 1] =
      .ok (QueueFamiliesInit.mk 1 1 1 1 1 1)
    ∧ graphicsEligible (fun _ => true) 0 (QueueFamilyProps.mk 1 1) = true
    ∧ (∀ qf : QueueFamiliesInit,
        queueFamiliesNewInit (fun _ => true)
            [QueueFamilyProps.mk 1 1, QueueFamilyProps.mk 1 1] = .ok qf →
          qf.graphics ≠ 0) := by
  refine ⟨rfl, by decide, ?_⟩
  intro qf h
  have heq : queueFamiliesNewInit (fun _ => true)
      [QueueFamilyProps.mk 1 1, QueueFamilyProps.mk 1 1] =
        .ok (QueueFamiliesInit.mk 1 1 1 1 1 1) := rfl
  rw [heq] at h
  cases h
  decide

/-- C5 amended: queue-family selection chooses as the graphics family the
LAST family (in enumeration order) with `queue_count > 0`, GRAPHICS
capability and verified presentation support; if no such family exists,
initialization fails with the fatal `DeviceSelectionError`. -/
theorem graphics_family_last_match_and_fatal (support : Nat → Bool)
    (fams : List QueueFamilyProps) :
    (∀ qf, queueFamiliesNewInit support fams = .ok qf →
      lastGraphicsFamily support fams = some qf.graphics)
    ∧ (lastGraphicsFamily support fams = none →
      queueFamiliesNewInit support fams =
        .error (.deviceSelectionError "No valid queues exist for graphics!"))
    ∧ (∀ g, lastGraphicsFamily support fams = some g →
      ∃ qf, queueFamiliesNewInit support fams = .ok qf ∧ qf.graphics = g) := by
  have hg : (qfInitScan support fams).1 = lastGraphicsFamily support fams :=
    qfInitScan_graphics support fams.enum none none none
  refine ⟨?_, ?_, ?_⟩
  · intro qf h
    rw [← hg]
    simp only [queueFamiliesNewInit] at h
    rcases hs : (qfInitScan support fams).1 with _ | g
    · rw [hs] at h; exact absurd h (by simp)
    · rw [hs] at h
      simp only [Except.ok.injEq] at h
      rw [← h]
  · intro h
    simp only [queueFamiliesNewInit]
    rw [← hg] at h
    rw [h]
  · intro g h
    rw [← hg] at h
    simp only [queueFamiliesNewInit]
    rw [h]
    exact ⟨_, rfl, rfl⟩

/-- Witness for the amended C5 at the counterexample input: the last
eligible family (index 1) is selected. -/
theorem graphics_family_last_match_and_fatal_witness :
    lastGraphicsFamily (fun _ => true)
        [QueueFamilyProps.mk 1 1, QueueFamilyProps.mk 1 1] = some 1
    ∧ (∃ qf, queueFamiliesNewInit (fun _ => true)
        [QueueFamilyProps.mk 1 1, QueueFamilyProps.mk 1 1] = .ok qf ∧
        qf.graphics = 1) :=
  ⟨by decide,
   (graphics_family_last_match_and_fatal (fun _ => true)
      [QueueFamilyProps.mk 1 1, QueueFamilyProps.mk 1 1]).2.2 1 (by decide)⟩

/-! ### `QueueFamilies::new` of `mod.rs` (lines 37-91) -/

/-- Loop state of the `mod.rs` scan: the two option slots and the
`transfer_queue_specialization` register (initialised to 32). -/
structure QFScanSt where
  graphics : Option Nat
  transfer : Option Nat
  transferSpec : Nat
deriving DecidableEq, Repr

/-- The graphics half of one loop iteration (`mod.rs` lines 52-57). -/
def qfStepGraphics (support : Nat → Bool) (st : QFScanSt) (i : Nat)
    (fam : QueueFamilyProps) : QFScanSt :=
  if graphicsEligible support i fam = true then { st with graphics := some i } else st

/-- One full loop iteration (`mod.rs` lines 49-83): update the graphics
slot, then, for transfer-eligible families, displace the current transfer
choice when the slot is empty, when it currently equals the graphics
slot, or when this family has strictly fewer non-TRANSFER bits than the
recorded best. -/
def qfStepMod (support : Nat → Bool) (st : QFScanSt) (i : Nat)
    (fam : QueueFamilyProps) : QFScanSt :=
  let st1 := qfStepGraphics support st i fam
  if transferEligibleB fam = true then
    let spec := nonTransferBits fam.queueFlags
    if st1.transfer = none ∨ st1.transfer = st1.graphics ∨ spec < st1.transferSpec then
      { st1 with transfer := some i, transferSpec := spec }
    else st1
  else st1

def qfScanMod (support : Nat → Bool) (fams : List QueueFamilyProps) : QFScanSt :=
  fams.enum.foldl (fun st p => qfStepMod support st p.1 p.2)
    (QFScanSt.mk none none 32)

structure QueueFamiliesMod where
  graphicsQIndex : Option Nat
  transferQIndex : Option Nat
deriving DecidableEq, Repr

/-- Embedding of `QueueFamilies::new` from `mod.rs`. -/
def queueFamiliesNewMod (support : Nat → Bool) (fams : List QueueFamilyProps) :
    QueueFamiliesMod :=
  { graphicsQIndex := (qfScanMod support fams).graphics
    transferQIndex := (qfScanMod support fams).transfer }

theorem qfStepGraphics_transfer (support : Nat → Bool) (st : QFScanSt) (i : Nat)
    (fam : QueueFamilyProps) :
    (qfStepGraphics support st i fam).transfer = st.transfer := by
  unfold qfStepGraphics; split <;> rfl

theorem qfStepGraphics_spec (support : Nat → Bool) (st : QFScanSt) (i : Nat)
    (fam : QueueFamilyProps) :
    (qfStepGraphics support st i fam).transferSpec = st.transferSpec := by
  unfold qfStepGraphics; split <;> rfl

theorem qfScanMod_transfer_elig_aux (support : Nat → Bool)
    (L : List (Nat × QueueFamilyProps)) :
    ∀ (l : List (Nat × QueueFamilyProps)) (st : QFScanSt),
      (∀ p ∈ l, p ∈ L) →
      (∀ j, st.transfer = some j →
        ∃ f, (j, f) ∈ L ∧ transferEligibleB f = true) →
      ∀ j, (l.foldl (fun t p => qfStepMod support t p.1 p.2) st).transfer = some j →
        ∃ f, (j, f) ∈ L ∧ transferEligibleB f = true := by
  intro l
  induction l with
  | nil => exact fun st _ hst j hj => hst j hj
  | cons p rest ih =>
    intro st hsub hst j hj
    rw [List.foldl_cons] at hj
    refine ih _ (fun q hq => hsub q (List.mem_cons_of_mem _ hq)) ?_ j hj
    intro j' hj'
    by_cases he : transferEligibleB p.2 = true
    · unfold qfStepMod at hj'
      rw [if_pos he] at hj'
      by_cases hcond : (qfStepGraphics support st p.1 p.2).transfer = none ∨
          (qfStepGraphics support st p.1 p.2).transfer =
            (qfStepGraphics support st p.1 p.2).graphics ∨
          nonTransferBits p.2.queueFlags <
            (qfStepGraphics support st p.1 p.2).transferSpec
      · rw [if_pos hcond] at hj'
        simp only [Option.some.injEq] at hj'
        exact ⟨p.2, by simpa [← hj'] using hsub p (List.mem_cons_self p rest), he⟩
      · rw [if_neg hcond] at hj'
        rw [qfStepGraphics_transfer] at hj'
        exact hst j' hj'
    · unfold qfStepMod at hj'
      rw [if_neg he, qfStepGraphics_transfer] at hj'
      exact hst j' hj'

/-- C6 counterexample: family 0 has GRAPHICS only (one non-TRANSFER bit)
and supports the surface; family 1 has GRAPHICS|COMPUTE (two non-TRANSFER
bits) and does not.  Both are transfer-eligible.  The code's final
transfer choice is family 1 even though family 0 is strictly more
specialized — the `found_transfer == found_graphics` clause displaced the
graphics family by a strictly LESS specialized one, so the selection does
not minimize the non-TRANSFER bit count, and the tie/default rule is not
"resolve to the graphics family". -/
theorem transfer_family_not_minimizing_cex :
    (queueFamiliesNewMod (fun i => i == 0)
        [QueueFamilyProps.mk 1 1, QueueFamilyProps.mk 1 3]).transferQIndex = some 1
    ∧ transferEligibleB (QueueFamilyProps.mk 1 1) = true
    ∧ transferEligibleB (QueueFamilyProps.mk 1 3) = true
    ∧ nonTransferBits (QueueFamilyProps.mk 1 1).queueFlags <
        nonTransferBits (QueueFamilyProps.mk 1 3).queueFlags := by
  refine ⟨rfl, by decide, by decide, by decide⟩

/-- C6 amended: the scan considers exactly the families with
`queue_count > 0` and at least one of TRANSFER/GRAPHICS/COMPUTE (any
selected index comes from such a family); at each step an eligible
family displaces the current transfer choice precisely when the slot is
empty, when the current choice equals the graphics family found so far,
or when it is strictly more specialized (fewer non-TRANSFER bits) than
the recorded best — in particular a strictly more specialized family
always displaces the current choice, while on a non-strict comparison
the incumbent is kept unless it equals the graphics family.  (The final
choice therefore need not minimize the non-TRANSFER bit count; see the
counterexample.) -/
theorem transfer_family_scan_rule (support : Nat → Bool)
    (fams : List QueueFamilyProps) (st : QFScanSt) (i : Nat)
    (fam : QueueFamilyProps) :
    (transferEligibleB fam = false →
      (qfStepMod support st i fam).transfer = st.transfer
      ∧ (qfStepMod support st i fam).transferSpec = st.transferSpec)
    ∧ (transferEligibleB fam = true →
        (st.transfer = none ∨
          st.transfer = (qfStepGraphics support st i fam).graphics ∨
          nonTransferBits fam.queueFlags < st.transferSpec) →
      (qfStepMod support st i fam).transfer = some i
      ∧ (qfStepMod support st i fam).transferSpec = nonTransferBits fam.queueFlags)
    ∧ (transferEligibleB fam = true →
        ¬(st.transfer = none ∨
          st.transfer = (qfStepGraphics support st i fam).graphics ∨
          nonTransferBits fam.queueFlags < st.transferSpec) →
      qfStepMod support st i fam = qfStepGraphics support st i fam)
    ∧ (∀ j, (qfScanMod support fams).transfer = some j →
        ∃ f, (j, f) ∈ fams.enum ∧ transferEligibleB f = true) := by
  refine ⟨?_, ?_, ?_, ?_⟩
  · intro he
    unfold qfStepMod
    rw [if_neg (by simp [he]), qfStepGraphics_transfer, qfStepGraphics_spec]
    exact ⟨rfl, rfl⟩
  · intro he hcond
    unfold qfStepMod
    rw [if_pos he, if_pos (by
      rwa [qfStepGraphics_transfer, qfStepGraphics_spec])]
    exact ⟨rfl, rfl⟩
  · intro he hcond
    unfold qfStepMod
    rw [if_pos he, if_neg (by
      rwa [qfStepGraphics_transfer, qfStepGraphics_spec])]
  · intro j hj
    have hj' : (fams.enum.foldl (fun t p => qfStepMod support t p.1 p.2)
        (QFScanSt.mk none none 32)).transfer = some j := hj
    exact qfScanMod_transfer_elig_aux support fams.enum fams.enum
      (QFScanSt.mk none none 32) (fun p hp => hp) (fun j' h => nomatch h) j hj'

/-- Witness for the amended C6: with the transfer slot currently equal to
the graphics slot (family 0), the eligible family 1 — although strictly
LESS specialized (2 non-TRANSFER bits against a recorded best of 1) —
displaces it, as the scan rule dictates. -/
theorem transfer_family_scan_rule_witness :
    (qfStepMod (fun _ => false) (QFScanSt.mk (some 0) (some 0) 1) 1
        (QueueFamilyProps.mk 1 3)).transfer = some 1
    ∧ (qfStepMod (fun _ => false) (QFScanSt.mk (some 0) (some 0) 1) 1
        (QueueFamilyProps.mk 1 3)).transferSpec =
      nonTransferBits (QueueFamilyProps.mk 1 3).queueFlags :=
  (transfer_family_scan_rule (fun _ => false) [] (QFScanSt.mk (some 0) (some 0) 1)
      1 (QueueFamilyProps.mk 1 3)).2.1 (by decide)
    (Or.inr (Or.inl (by decide)))

/-! ## Texture store (`texture.rs`)

Device-side handle creation (`create_image`, `create_image_view`,
`create_sampler`, command buffers, fences) always succeeds in the model
and draws fresh handles from a counter `dev`.  `Uuid::new_v4()` (the
external uuid collaborator) is modelled as a fresh-identifier supply: a
counter `gen` yielding `gen, gen+1, ...`.  The allocator's `allocate` may
fail according to an externally chosen `supply`; the source calls
`.unwrap()` on its result, so a failure is a panic. -/

inductive AllocErrM where
  | outOfMemory
deriving DecidableEq, Repr

inductive MemLocationM where
  | gpuOnly
  | cpuToGpu
deriving DecidableEq, Repr

/-- The allocator for the texture path: an external success/failure
supply per allocation, a fresh-id counter, and the list of freed
allocation ids. -/
structure AllocatorM where
  supply : Nat → Except AllocErrM Unit
  next : Nat
  freed : List Nat

/-- `Allocator::allocate`: fails according to `supply`; on success the
allocation is mapped exactly when its location is host-visible
(`CpuToGpu`). -/
def AllocatorM.allocate (al : AllocatorM) (loc : MemLocationM) :
    Except AllocErrM (AllocationM × AllocatorM) :=
  match al.supply al.next with
  | .error e => .error e
  | .ok _ =>
    .ok (AllocationM.mk al.next (if loc = .cpuToGpu then some al.next else none),
      { al with next := al.next + 1 })

/-- `Allocator::free` on this allocator model. -/
def AllocatorM.freeAlloc (al : AllocatorM) (a : AllocationM) : AllocatorM :=
  { al with freed := al.freed ++ [a.id] }

/-- Rust call outcome: `Ok`, typed `Err`, or panic. -/
inductive RustRes (ε α : Type) where
  | ok (val : α)
  | err (e : ε)
  | panicked

/-- Typed error of `Texture::new` (`Result<Texture, vk::Result>`). -/
inductive VkResultM where
  | deviceError
deriving DecidableEq, Repr

/-- `RuntimeError` (`error.rs`): a Vulkan error or an allocation error.
The `AllocationError` variant exists precisely so allocation failures can
be surfaced as typed errors. -/
inductive RuntimeErrorM where
  | vkErr (e : VkResultM)
  | allocationError (e : AllocErrM)
deriving DecidableEq, Repr

/-- `Texture` (`texture.rs` lines 19-26). -/
structure TextureM where
  image : Nat
  width : Nat
  height : Nat
  imageView : Nat
  sampler : Nat
  allocation : Option AllocationM
deriving DecidableEq, Repr

/-- Embedding of `Texture::new` (`texture.rs` lines 29-116): create the
image handle, then `allocator.allocate(...).unwrap()` — an allocation
failure PANICS (it is not returned as the typed `vk::Result` error) —
then bind, create the view and the sampler, and return the texture with
its allocation slot occupied. -/
def TextureM.new (al : AllocatorM) (dev : Nat) (width height : Nat) :
    RustRes VkResultM (TextureM × AllocatorM × Nat) :=
  let image := dev
  match al.allocate .gpuOnly with
  | .error _ => .panicked
  | .ok (a, al) =>
    .ok (TextureM.mk image width height (dev + 1) (dev + 2) (some a), al, dev + 3)

/-- Embedding of `Texture::upload` (`texture.rs` lines 118-243) restricted
to its resource effects: create a transient host-visible staging
`Buffer` (whose `Buffer::new` also `.unwrap()`s the allocation — failure
panics), copy the pixels into it (succeeds: the fresh staging allocation
is present and mapped), record/submit the one-time command buffer with a
fresh fence, wait, destroy the fence and free the staging buffer. -/
def TextureM.upload (_t : TextureM) (al : AllocatorM) (dev : Nat) (_rawLen : Nat) :
    RustRes VkResultM (AllocatorM × Nat) :=
  match al.allocate .cpuToGpu with
  | .error _ => .panicked
  | .ok (a, al) => .ok (al.freeAlloc a, dev + 3)

/-- `TextureHandle` (`texture.rs` lines 256-258): an opaque id. -/
structure TextureHandleM where
  id : Nat
deriving DecidableEq, Repr

/-- `TextureStore` (`texture.rs` lines 260-263): the handle→slot map and
the texture sequence. -/
structure TextureStoreM where
  texturesMap : List (Nat × Nat)
  textures : List TextureM
deriving DecidableEq, Repr

/-- `RGBAImage` (`jr_image.rs`), reduced to the fields the store reads. -/
structure RGBAImageM where
  width : Nat
  height : Nat
  dataLen : Nat
deriving DecidableEq, Repr

/-- Embedding of `TextureStore::register_texture` (`texture.rs` lines
279-310): draw a fresh id, `Texture::new` (`?` propagates typed errors,
allocation failure panics), `upload` (likewise), push the texture, map
`id → textures.len() - 1`, return the handle. -/
def TextureStoreM.registerTexture (store : TextureStoreM) (gen : Nat)
    (al : AllocatorM) (dev : Nat) (img : RGBAImageM) :
    RustRes RuntimeErrorM
      (TextureStoreM × TextureHandleM × Nat × AllocatorM × Nat) :=
  let id := gen
  match TextureM.new al dev img.width img.height with
  | .panicked => .panicked
  | .err e => .err (.vkErr e)
  | .ok (t, al, dev) =>
    match t.upload al dev img.dataLen with
    | .panicked => .panicked
    | .err e => .err (.vkErr e)
    | .ok (al, dev) =>
      .ok ({ texturesMap := (id, store.textures.length) :: store.texturesMap
             textures := store.textures ++ [t] },
           TextureHandleM.mk id, gen + 1, al, dev)

inductive ImageLayoutM where
  | shaderReadOnlyOptimal
  | transferDstOptimal
deriving DecidableEq, Repr

/-- `vk::DescriptorImageInfo` as built by the store. -/
structure DescriptorImageInfoM where
  imageLayout : ImageLayoutM
  imageView : Nat
  sampler : Nat
deriving DecidableEq, Repr

/-- Embedding of `TextureStore::get_descriptor_image_info` (`texture.rs`
lines 325-336): one record per texture, in slot order, with layout
`SHADER_READ_ONLY_OPTIMAL` and the texture's view and sampler. -/
def TextureStoreM.getDescriptorImageInfo (s : TextureStoreM) :
    List DescriptorImageInfoM :=
  s.textures.map (fun t =>
    DescriptorImageInfoM.mk .shaderReadOnlyOptimal t.imageView t.sampler)

/-- A sequence of `register_texture` calls threading store, id supply,
allocator and device state. -/
def registerMany (store : TextureStoreM) (gen : Nat) (al : AllocatorM) (dev : Nat) :
    List RGBAImageM →
    RustRes RuntimeErrorM
      (TextureStoreM × List TextureHandleM × Nat × AllocatorM × Nat)
  | [] => .ok (store, [], gen, al, dev)
  | img :: rest =>
    match store.registerTexture gen al dev img with
    | .panicked => .panicked
    | .err e => .err e
    | .ok (store1, h, gen1, al1, dev1) =>
      match registerMany store1 gen1 al1 dev1 rest with
      | .panicked => .panicked
      | .err e => .err e
      | .ok (store2, hs, gen2, al2, dev2) => .ok (store2, h :: hs, gen2, al2, dev2)

/-- An allocator that reports out-of-memory on every allocation. -/
def oomAllocator : AllocatorM :=
  AllocatorM.mk (fun _ => .error .outOfMemory) 0 []

/-- C3 (code bug): when the allocator reports out-of-memory during
`register_texture`, the call PANICS (`allocator.allocate(...).unwrap()`
inside `Texture::new`) instead of returning the typed
`RuntimeError::AllocationError` the caller-facing error enum provides;
in particular no typed error is ever produced on this path. -/
theorem register_texture_panics_on_oom :
    (TextureStoreM.mk [(99, 0)]
        [TextureM.mk 5 16 16 6 7 (some (AllocationM.mk 3 none))]).registerTexture
      42 oomAllocator 100 (RGBAImageM.mk 16 16 1024) = .panicked
    ∧ (∀ e : RuntimeErrorM,
        (TextureStoreM.mk [(99, 0)]
            [TextureM.mk 5 16 16 6 7 (some (AllocationM.mk 3 none))]).registerTexture
          42 oomAllocator 100 (RGBAImageM.mk 16 16 1024) ≠ .err e) := by
  refine ⟨rfl, ?_⟩
  intro e he
  have h1 : (TextureStoreM.mk [(99, 0)]
      [TextureM.mk 5 16 16 6 7 (some (AllocationM.mk 3 none))]).registerTexture
        42 oomAllocator 100 (RGBAImageM.mk 16 16 1024) = .panicked := rfl
  rw [h1] at he
  exact RustRes.noConfusion he

theorem registerTexture_ok (store : TextureStoreM) (gen : Nat) (al : AllocatorM)
    (dev : Nat) (img : RGBAImageM) (hok : ∀ n, al.supply n = Except.ok ()) :
    store.registerTexture gen al dev img =
      .ok ({ texturesMap := (gen, store.textures.length) :: store.texturesMap
             textures := store.textures ++
               [TextureM.mk dev img.width img.height (dev + 1) (dev + 2)
                 (some (AllocationM.mk al.next none))] },
           TextureHandleM.mk gen, gen + 1,
           AllocatorM.mk al.supply (al.next + 2) (al.freed ++ [al.next + 1]),
           dev + 6) := by
  simp [TextureStoreM.registerTexture, TextureM.new, TextureM.upload,
    AllocatorM.allocate, AllocatorM.freeAlloc, hok]

theorem registerMany_ok (imgs : List RGBAImageM) :
    ∀ (store : TextureStoreM) (gen : Nat) (al : AllocatorM) (dev : Nat),
      (∀ n, al.supply n = Except.ok ()) →
      ∃ store' hs gen' al' dev',
        registerMany store gen al dev imgs = .ok (store', hs, gen', al', dev')
        ∧ hs.map TextureHandleM.id = (List.range imgs.length).map (fun k => gen + k)
        ∧ (∃ newTextures, store'.textures = store.textures ++ newTextures ∧
            newTextures.map (fun t => (t.width, t.height)) =
              imgs.map (fun im => (im.width, im.height))) := by
  induction imgs with
  | nil =>
    intro store gen al dev hok
    exact ⟨store, [], gen, al, dev, rfl, by simp, ⟨[], by simp, by simp⟩⟩
  | cons img rest ih =>
    intro store gen al dev hok
    have hreg := registerTexture_ok store gen al dev img hok
    obtain ⟨store', hs, gen', al', dev', hrun, hmap, newTex, hpre, hwh⟩ :=
      ih { texturesMap := (gen, store.textures.length) :: store.texturesMap
           textures := store.textures ++
             [TextureM.mk dev img.width img.height (dev + 1) (dev + 2)
               (some (AllocationM.mk al.next none))] }
        (gen + 1)
        (AllocatorM.mk al.supply (al.next + 2) (al.freed ++ [al.next + 1]))
        (dev + 6) (fun n => hok n)
    refine ⟨store', TextureHandleM.mk gen :: hs, gen', al', dev', ?_, ?_, ?_⟩
    · show registerMany store gen al dev (img :: rest) = _
      simp only [registerMany, hreg, hrun]
    · simp only [List.map_cons, hmap, List.length_cons, List.range_succ_eq_map,
        List.map_map]
      congr 1
      apply List.map_congr_left
      intro k hk
      simp only [Function.comp_apply]
      omega
    · refine ⟨TextureM.mk dev img.width img.height (dev + 1) (dev + 2)
        (some (AllocationM.mk al.next none)) :: newTex, ?_, ?_⟩
      · rw [hpre]
        simp
      · simp only [List.map_cons, hwh]

/-- C7: from any store state, registering `K` images with an allocator
that keeps succeeding yields `K` pairwise-distinct `TextureHandle`s; the
new textures are appended to the store in registration order (one per
image, matching extents), and `get_descriptor_image_info()` returns
exactly one entry per texture, in slot order, each carrying layout
`SHADER_READ_ONLY_OPTIMAL` and that texture's image view and sampler. -/
theorem texture_handles_unique_descriptors_ordered (store : TextureStoreM)
    (gen : Nat) (al : AllocatorM) (dev : Nat) (imgs : List RGBAImageM)
    (hok : ∀ n, al.supply n = Except.ok ()) :
    ∃ store' hs gen' al' dev',
      registerMany store gen al dev imgs = .ok (store', hs, gen', al', dev')
      ∧ hs.length = imgs.length
      ∧ (hs.map TextureHandleM.id).Nodup
      ∧ store'.textures.length = store.textures.length + imgs.length
      ∧ (∃ newTextures, store'.textures = store.textures ++ newTextures ∧
          newTextures.map (fun t => (t.width, t.height)) =
            imgs.map (fun im => (im.width, im.height)))
      ∧ store'.getDescriptorImageInfo.length = store'.textures.length
      ∧ (∀ i : Nat, store'.getDescriptorImageInfo[i]? =
          store'.textures[i]?.map (fun t =>
            DescriptorImageInfoM.mk .shaderReadOnlyOptimal t.imageView t.sampler)) := by
  obtain ⟨store', hs, gen', al', dev', hrun, hmap, newTex, hpre, hwh⟩ :=
    registerMany_ok imgs store gen al dev hok
  have hlenNew : newTex.length = imgs.length := by
    have := congrArg List.length hwh
    simpa using this
  refine ⟨store', hs, gen', al', dev', hrun, ?_, ?_, ?_, ⟨newTex, hpre, hwh⟩, ?_, ?_⟩
  · have := congrArg List.length hmap
    simpa using this
  · rw [hmap]
    exact List.Nodup.map (fun a b h => by omega) (List.nodup_range _)
  · rw [hpre]
    simp [hlenNew]
  · simp [TextureStoreM.getDescriptorImageInfo]
  · intro i
    simp [TextureStoreM.getDescriptorImageInfo]

/-- Witness for C7: registering a 2x2 and a 4x4 image into an empty store
with an always-succeeding allocator. -/
theorem texture_handles_unique_descriptors_ordered_witness :
    ∃ store' hs gen' al' dev',
      registerMany (TextureStoreM.mk [] []) 0
          (AllocatorM.mk (fun _ => Except.ok ()) 0 []) 0
          [RGBAImageM.mk 2 2 16, RGBAImageM.mk 4 4 64] =
        .ok (store', hs, gen', al', dev')
      ∧ hs.length = ([RGBAImageM.mk 2 2 16, RGBAImageM.mk 4 4 64] : List RGBAImageM).length
      ∧ (hs.map TextureHandleM.id).Nodup
      ∧ store'.textures.length = (TextureStoreM.mk [] []).textures.length +
          ([RGBAImageM.mk 2 2 16, RGBAImageM.mk 4 4 64] : List RGBAImageM).length
      ∧ (∃ newTextures, store'.textures =
            (TextureStoreM.mk [] []).textures ++ newTextures ∧
          newTextures.map (fun t => (t.width, t.height)) =
            ([RGBAImageM.mk 2 2 16, RGBAImageM.mk 4 4 64] : List RGBAImageM).map
              (fun im => (im.width, im.height)))
      ∧ store'.getDescriptorImageInfo.length = store'.textures.length
      ∧ (∀ i : Nat, store'.getDescriptorImageInfo[i]? =
          store'.textures[i]?.map (fun t =>
            DescriptorImageInfoM.mk .shaderReadOnlyOptimal t.imageView t.sampler)) :=
  texture_handles_unique_descriptors_ordered (TextureStoreM.mk [] []) 0
    (AllocatorM.mk (fun _ => Except.ok ()) 0 []) 0
    [RGBAImageM.mk 2 2 16, RGBAImageM.mk 4 4 64] (fun _ => rfl)

/-! ## Camera (`camera.rs`) over exact real arithmetic

The source works on `f32`; the claims about the camera are stated "within
floating-point tolerance; exactly, over an exact-arithmetic embedding",
so the embedding is over `ℝ`.  `na::Rotation3::from_axis_angle(axis, θ)`
applied to `v` is the Rodrigues rotation
`cos θ • v + sin θ • (axis × v) + (1 - cos θ)(axis · v) • axis`;
`na::Unit::new_normalize` divides by the Euclidean norm. -/

@[ext]
structure Vec3 where
  x : ℝ
  y : ℝ
  z : ℝ

def Vec3.dot (a b : Vec3) : ℝ := a.x * b.x + a.y * b.y + a.z * b.z

def Vec3.cross (a b : Vec3) : Vec3 :=
  Vec3.mk (a.y * b.z - a.z * b.y) (a.z * b.x - a.x * b.z) (a.x * b.y - a.y * b.x)

def Vec3.smul (r : ℝ) (v : Vec3) : Vec3 := Vec3.mk (r * v.x) (r * v.y) (r * v.z)

def Vec3.add (a b : Vec3) : Vec3 := Vec3.mk (a.x + b.x) (a.y + b.y) (a.z + b.z)

/-- Rodrigues rotation about axis `a` with `c = cos θ`, `s = sin θ`. -/
noncomputable def rotCS (a : Vec3) (c s : ℝ) (v : Vec3) : Vec3 :=
  Vec3.add (Vec3.add (Vec3.smul c v) (Vec3.smul s (Vec3.cross a v)))
    (Vec3.smul ((1 - c) * Vec3.dot a v) a)

/-- `Rotation3::from_axis_angle(a, θ) * v`. -/
noncomputable def rotAxisAngle (a : Vec3) (θ : ℝ) (v : Vec3) : Vec3 :=
  rotCS a (Real.cos θ) (Real.sin θ) v

/-- `Unit::new_normalize`. -/
noncomputable def normalizeV (v : Vec3) : Vec3 :=
  Vec3.smul (1 / Real.sqrt (Vec3.dot v v)) v

/-- `Camera` restricted to the fields the `turn_*` operations read or
write (`position` is untouched by turns; the derived matrices are
recomputed from these fields). -/
structure CameraSt where
  position : Vec3
  viewDirection : Vec3
  downDirection : Vec3

/-- `Camera::turn_right` (`camera.rs` lines 84-88): rotate the view
direction about the down axis. -/
noncomputable def CameraSt.turnRight (cam : CameraSt) (θ : ℝ) : CameraSt :=
  { cam with viewDirection := rotAxisAngle cam.downDirection θ cam.viewDirection }

/-- `Camera::turn_left` = `turn_right(-θ)`. -/
noncomputable def CameraSt.turnLeft (cam : CameraSt) (θ : ℝ) : CameraSt :=
  cam.turnRight (-θ)

/-- `Camera::turn_up` (`camera.rs` lines 92-98): rotate both view and
down directions about the normalized `down × view` axis. -/
noncomputable def CameraSt.turnUp (cam : CameraSt) (θ : ℝ) : CameraSt :=
  let right := normalizeV (Vec3.cross cam.downDirection cam.viewDirection)
  { cam with viewDirection := rotAxisAngle right θ cam.viewDirection
             downDirection := rotAxisAngle right θ cam.downDirection }

/-- `Camera::turn_down` = `turn_up(-θ)`. -/
noncomputable def CameraSt.turnDown (cam : CameraSt) (θ : ℝ) : CameraSt :=
  cam.turnUp (-θ)

/-- `Camera::default` (`camera.rs` lines 15-32): view `(0,0,1)` and down
`(0,-1,0)`, both through `Unit::new_normalize`. -/
noncomputable def defaultCamera : CameraSt :=
  { position := Vec3.mk 0 0 0
    viewDirection := normalizeV (Vec3.mk 0 0 1)
    downDirection := normalizeV (Vec3.mk 0 (-1) 0) }

inductive TurnOp where
  | turnR (θ : ℝ)
  | turnL (θ : ℝ)
  | turnU (θ : ℝ)
  | turnD (θ : ℝ)

noncomputable def applyTurn (cam : CameraSt) : TurnOp → CameraSt
  | .turnR θ => cam.turnRight θ
  | .turnL θ => cam.turnLeft θ
  | .turnU θ => cam.turnUp θ
  | .turnD θ => cam.turnDown θ

noncomputable def applyTurns (cam : CameraSt) (ops : List TurnOp) : CameraSt :=
  ops.foldl applyTurn cam

theorem dot_comm (a b : Vec3) : a.dot b = b.dot a := by
  simp only [Vec3.dot]; ring

theorem crossSelfDot (a b : Vec3) :
    (Vec3.cross a b).dot (Vec3.cross a b) = a.dot a * b.dot b - (a.dot b) ^ 2 := by
  simp only [Vec3.cross, Vec3.dot]; ring

/-- A Rodrigues rotation about a unit axis with `c² + s² = 1` preserves
dot products. -/
theorem rotCS_dot (a : Vec3) (c s : ℝ) (ha : a.dot a = 1)
    (hcs : c ^ 2 + s ^ 2 = 1) (v w : Vec3) :
    (rotCS a c s v).dot (rotCS a c s w) = v.dot w := by
  simp only [rotCS, Vec3.add, Vec3.smul, Vec3.cross, Vec3.dot] at ha ⊢
  linear_combination
    (s ^ 2 * (v.x * w.x + v.y * w.y + v.z * w.z) +
      (1 - c) ^ 2 * (a.x * v.x + a.y * v.y + a.z * v.z) *
        (a.x * w.x + a.y * w.y + a.z * w.z)) * ha +
    ((v.x * w.x + v.y * w.y + v.z * w.z) -
      (a.x * v.x + a.y * v.y + a.z * v.z) *
        (a.x * w.x + a.y * w.y + a.z * w.z)) * hcs

/-- The rotation axis is fixed by the rotation. -/
theorem rotCS_axis (a : Vec3) (c s : ℝ) (ha : a.dot a = 1) :
    rotCS a c s a = a := by
  simp only [Vec3.dot] at ha
  refine Vec3.ext ?_ ?_ ?_ <;>
    simp only [rotCS, Vec3.add, Vec3.smul, Vec3.cross, Vec3.dot]
  · linear_combination ((1 - c) * a.x) * ha
  · linear_combination ((1 - c) * a.y) * ha
  · linear_combination ((1 - c) * a.z) * ha

theorem normalizeV_of_dot_one (v : Vec3) (hv : v.dot v = 1) : normalizeV v = v := by
  unfold normalizeV
  rw [hv, Real.sqrt_one]
  refine Vec3.ext ?_ ?_ ?_ <;> simp [Vec3.smul]

/-- The camera-frame invariant: unit view and down directions, mutually
orthogonal. -/
def orthonormalFrame (cam : CameraSt) : Prop :=
  cam.viewDirection.dot cam.viewDirection = 1
  ∧ cam.downDirection.dot cam.downDirection = 1
  ∧ cam.viewDirection.dot cam.downDirection = 0

theorem cos_sq_sin_sq (θ : ℝ) : Real.cos θ ^ 2 + Real.sin θ ^ 2 = 1 := by
  have := Real.sin_sq_add_cos_sq θ
  linarith

theorem turnRight_frame (cam : CameraSt) (θ : ℝ) (h : orthonormalFrame cam) :
    orthonormalFrame (cam.turnRight θ) := by
  obtain ⟨hv, hd, hvd⟩ := h
  refine ⟨?_, hd, ?_⟩
  · show (rotAxisAngle cam.downDirection θ cam.viewDirection).dot
      (rotAxisAngle cam.downDirection θ cam.viewDirection) = 1
    unfold rotAxisAngle
    rw [rotCS_dot _ _ _ hd (cos_sq_sin_sq θ), hv]
  · show (rotAxisAngle cam.downDirection θ cam.viewDirection).dot
      cam.downDirection = 0
    unfold rotAxisAngle
    have h := rotCS_dot cam.downDirection (Real.cos θ) (Real.sin θ) hd
      (cos_sq_sin_sq θ) cam.viewDirection cam.downDirection
    rw [rotCS_axis _ _ _ hd] at h
    rw [h, hvd]

theorem turnUp_frame (cam : CameraSt) (θ : ℝ) (h : orthonormalFrame cam) :
    orthonormalFrame (cam.turnUp θ) := by
  obtain ⟨hv, hd, hvd⟩ := h
  have hr0 : (Vec3.cross cam.downDirection cam.viewDirection).dot
      (Vec3.cross cam.downDirection cam.viewDirection) = 1 := by
    rw [crossSelfDot, hv, hd, dot_comm cam.downDirection cam.viewDirection, hvd]
    ring
  have hr : (normalizeV (Vec3.cross cam.downDirection cam.viewDirection)).dot
      (normalizeV (Vec3.cross cam.downDirection cam.viewDirection)) = 1 := by
    rw [normalizeV_of_dot_one _ hr0]; exact hr0
  refine ⟨?_, ?_, ?_⟩
  · show (rotAxisAngle _ θ cam.viewDirection).dot (rotAxisAngle _ θ cam.viewDirection) = 1
    unfold rotAxisAngle
    rw [rotCS_dot _ _ _ hr (cos_sq_sin_sq θ), hv]
  · show (rotAxisAngle _ θ cam.downDirection).dot (rotAxisAngle _ θ cam.downDirection) = 1
    unfold rotAxisAngle
    rw [rotCS_dot _ _ _ hr (cos_sq_sin_sq θ), hd]
  · show (rotAxisAngle _ θ cam.viewDirection).dot (rotAxisAngle _ θ cam.downDirection) = 0
    unfold rotAxisAngle
    rw [rotCS_dot _ _ _ hr (cos_sq_sin_sq θ), hvd]

theorem defaultCamera_frame : orthonormalFrame defaultCamera := by
  have h1 : (Vec3.mk 0 0 1 : Vec3).dot (Vec3.mk 0 0 1) = 1 := by
    simp [Vec3.dot]
  have h2 : (Vec3.mk 0 (-1) 0 : Vec3).dot (Vec3.mk 0 (-1) 0) = 1 := by
    simp [Vec3.dot]
  have hview : defaultCamera.viewDirection = Vec3.mk 0 0 1 :=
    normalizeV_of_dot_one _ h1
  have hdown : defaultCamera.downDirection = Vec3.mk 0 (-1) 0 :=
    normalizeV_of_dot_one _ h2
  refine ⟨?_, ?_, ?_⟩
  · rw [hview]; exact h1
  · rw [hdown]; exact h2
  · rw [hview, hdown]; simp [Vec3.dot]

theorem applyTurns_frame (ops : List TurnOp) :
    ∀ cam : CameraSt, orthonormalFrame cam → orthonormalFrame (applyTurns cam ops) := by
  induction ops with
  | nil => exact fun cam h => h
  | cons op rest ih =>
    intro cam h
    have hstep : applyTurns cam (op :: rest) = applyTurns (applyTurn cam op) rest := rfl
    rw [hstep]
    refine ih _ ?_
    cases op with
    | turnR θ => exact turnRight_frame cam θ h
    | turnL θ => exact turnRight_frame cam (-θ) h
    | turnU θ => exact turnUp_frame cam θ h
    | turnD θ => exact turnUp_frame cam (-θ) h

/-- C8: starting from the default camera, after any finite sequence of
`turn_right`/`turn_left`/`turn_up`/`turn_down` calls with arbitrary
angles, the view and down directions remain unit-length and mutually
orthogonal (exactly, over the exact-arithmetic embedding). -/
theorem camera_turns_preserve_orthonormal_frame (ops : List TurnOp) :
    (applyTurns defaultCamera ops).viewDirection.dot
        (applyTurns defaultCamera ops).viewDirection = 1
    ∧ (applyTurns defaultCamera ops).downDirection.dot
        (applyTurns defaultCamera ops).downDirection = 1
    ∧ (applyTurns defaultCamera ops).viewDirection.dot
        (applyTurns defaultCamera ops).downDirection = 0 :=
  applyTurns_frame ops defaultCamera defaultCamera_frame

/-- Embedding of `Camera::update_projectionmatrix` (`camera.rs` lines
56-76): the row-major `Matrix4::new` literal with
`d = 1 / tan(0.5 * fovy)`. -/
noncomputable def projectionMatrix (fovy aspect near far : ℝ) :
    Fin 4 → Fin 4 → ℝ :=
  ![![(1 / Real.tan (0.5 * fovy)) / aspect, 0, 0, 0],
    ![0, 1 / Real.tan (0.5 * fovy), 0, 0],
    ![0, 0, far / (far - near), -near * far / (far - near)],
    ![0, 0, 1, 0]]

/-- C9: the projection matrix has entries `(2,2) = far/(far-near)`,
`(2,3) = -near*far/(far-near)`, `(3,2) = 1`, and the resulting
post-perspective-divide depth `(z * m22 + m23) / z` maps `z = near` to 0
and `z = far` to 1 whenever `0 < near < far`. -/
theorem camera_projection_depth_mapping (fovy aspect near far : ℝ)
    (hn : 0 < near) (hf : near < far) :
    projectionMatrix fovy aspect near far 2 2 = far / (far - near)
    ∧ projectionMatrix fovy aspect near far 2 3 = -near * far / (far - near)
    ∧ projectionMatrix fovy aspect near far 3 2 = 1
    ∧ (near * projectionMatrix fovy aspect near far 2 2 +
        projectionMatrix fovy aspect near far 2 3) / near = 0
    ∧ (far * projectionMatrix fovy aspect near far 2 2 +
        projectionMatrix fovy aspect near far 2 3) / far = 1 := by
  have h22 : projectionMatrix fovy aspect near far 2 2 = far / (far - near) := rfl
  have h23 : projectionMatrix fovy aspect near far 2 3 =
      -near * far / (far - near) := rfl
  have h32 : projectionMatrix fovy aspect near far 3 2 = 1 := rfl
  have hsub : far - near ≠ 0 := ne_of_gt (by linarith)
  have hnear : near ≠ 0 := ne_of_gt hn
  have hfar : far ≠ 0 := ne_of_gt (by linarith)
  refine ⟨h22, h23, h32, ?_, ?_⟩
  · rw [h22, h23]
    have hnum : near * (far / (far - near)) + -near * far / (far - near) = 0 := by
      field_simp
    rw [hnum, zero_div]
  · rw [h22, h23]
    rw [div_eq_one_iff_eq hfar]
    field_simp
    ring

/-- Witness for C9 at `fovy = 1`, `aspect = 1`, `near = 1`, `far = 2`. -/
theorem camera_projection_depth_mapping_witness :
    projectionMatrix 1 1 1 2 2 2 = 2 / (2 - 1)
    ∧ projectionMatrix 1 1 1 2 2 3 = -1 * 2 / (2 - 1)
    ∧ projectionMatrix 1 1 1 2 3 2 = 1
    ∧ (1 * projectionMatrix 1 1 1 2 2 2 + projectionMatrix 1 1 1 2 2 3) / 1 = 0
    ∧ (2 * projectionMatrix 1 1 1 2 2 2 + projectionMatrix 1 1 1 2 2 3) / 2 = 1 :=
  camera_projection_depth_mapping 1 1 1 2 one_pos one_lt_two
